import Mathlib

/-!
Verification of the OIDC relying-party client engine
(`oiccli/oic/requests.py`, `oidcservice/oidc/pkce.py`,
`oidcservice/oidc/utils.py`) against its natural-language specification.

Python dicts are modelled as string-keyed association lists with unique
keys (first binding wins on lookup, in-place replacement on assignment),
exceptions as explicit error values, and randomness as explicitly passed
deterministic data.  External cryptographic primitives (SHA-256) are kept
abstract, as the specification places them out of scope.
-/

namespace Oidc

/-! ### Python dict as a string-keyed association list -/

/-- Lookup `d[k]` in a Python dict modelled as an association list
(first binding wins; Python dicts have unique keys). -/
def lookupL {β : Type} : List (String × β) → String → Option β
  | [], _ => none
  | (k', v) :: rest, k => if k' = k then some v else lookupL rest k

/-- Python key-membership test `k in d`. -/
def hasKeyL {β : Type} (m : List (String × β)) (k : String) : Bool :=
  (lookupL m k).isSome

/-- Python assignment `d[k] = v`: replace the value at the first binding
of `k` if present, else append a new binding. -/
def insertL {β : Type} : List (String × β) → String → β → List (String × β)
  | [], k, v => [(k, v)]
  | (k', v') :: rest, k, v =>
      if k' = k then (k', v) :: rest else (k', v') :: insertL rest k v

theorem lookupL_insertL_self {β : Type} (m : List (String × β)) (k : String) (v : β) :
    lookupL (insertL m k v) k = some v := by
  induction m with
  | nil => simp [insertL, lookupL]
  | cons p rest ih =>
    obtain ⟨k', v'⟩ := p
    by_cases h : k' = k
    · simp [insertL, lookupL, h]
    · simp [insertL, lookupL, h, ih]

theorem lookupL_insertL_ne {β : Type} (m : List (String × β)) {k k' : String} (v : β)
    (h : k' ≠ k) : lookupL (insertL m k v) k' = lookupL m k' := by
  induction m with
  | nil =>
    simp only [insertL, lookupL]
    rw [if_neg (fun hh : k = k' => h hh.symm)]
  | cons p rest ih =>
    obtain ⟨k₀, v₀⟩ := p
    simp only [insertL]
    by_cases h0 : k₀ = k
    · rw [if_pos h0]
      subst h0
      simp only [lookupL]
      rw [if_neg (fun hh : k₀ = k' => h hh.symm), if_neg (fun hh : k₀ = k' => h hh.symm)]
    · rw [if_neg h0]
      simp only [lookupL]
      by_cases h1 : k₀ = k'
      · rw [if_pos h1, if_pos h1]
      · rw [if_neg h1, if_neg h1, ih]

theorem insertL_eq_of_lookupL {β : Type} {m : List (String × β)} {k : String} {v : β}
    (h : lookupL m k = some v) : insertL m k v = m := by
  induction m with
  | nil => simp [lookupL] at h
  | cons p rest ih =>
    obtain ⟨k₀, v₀⟩ := p
    by_cases h0 : k₀ = k
    · simp [lookupL, h0] at h
      simp [insertL, h0, h]
    · simp [lookupL, h0] at h
      simp [insertL, h0, ih h]

theorem hasKeyL_insertL_self {β : Type} (m : List (String × β)) (k : String) (v : β) :
    hasKeyL (insertL m k v) k = true := by
  simp [hasKeyL, lookupL_insertL_self]

theorem hasKeyL_insertL_of {β : Type} {m : List (String × β)} {k' : String} (k : String) (v : β)
    (h : hasKeyL m k' = true) : hasKeyL (insertL m k v) k' = true := by
  by_cases hk : k' = k
  · subst hk; simp [hasKeyL, lookupL_insertL_self]
  · simpa [hasKeyL, lookupL_insertL_ne m v hk] using h

theorem lookupL_insertL_of_fresh {β : Type} {m : List (String × β)} {k k' : String}
    {w : β} (v : β) (hfresh : lookupL m k = none) (h : lookupL m k' = some w) :
    lookupL (insertL m k v) k' = some w := by
  have hne : k' ≠ k := by
    intro he; subst he; rw [h] at hfresh; cases hfresh
  rw [lookupL_insertL_ne m v hne]; exact h

/-! ### PKCE helper — `oidcservice/oidc/pkce.py`

`unreserved` and the `CC_METHOD` table live in `oidcservice/__init__.py`,
which is not part of the sources; they are modelled from the spec.  The
SHA-256 primitive itself is external and kept abstract (a parameter),
only its 32-byte output length is ever used. -/

/-- The RFC 7636 unreserved alphabet: ALPHA / DIGIT / "-" / "." / "_" / "~". -/
def unreservedChars : List Char :=
  "ABCDEFGHIJKLMNOPQRSTUVWXYZabcdefghijklmnopqrstuvwxyz0123456789-._~".toList

/-- Modelled from the spec: `unreserved(n)` (missing `oidcservice/__init__.py`)
returns a random string of length `n` over the RFC 7636 unreserved alphabet;
randomness is irrelevant to the claims and is modelled deterministically. -/
def unreserved (n : Nat) : String := String.mk (List.replicate n 'a')

/-- Bytes of an ASCII string, Python `s.encode()`. -/
def strBytes (s : String) : List Nat := s.toList.map (fun c => c.toNat)

/-- Hex digit characters used by Python `hexdigest()`. -/
def hexChar (n : Nat) : Char := "0123456789abcdef".toList.getD n '0'

/-- Two lowercase hex digits of one byte. -/
def byteHex (b : Nat) : List Char := [hexChar (b / 16 % 16), hexChar (b % 16)]

/-- Python `hashobj.hexdigest()`: the digest bytes as a lowercase hex string. -/
def hexdigest (bs : List Nat) : String := String.mk ((bs.map byteHex).flatten)

/-- The URL-safe base64 alphabet. -/
def b64Table : List Char :=
  "ABCDEFGHIJKLMNOPQRSTUVWXYZabcdefghijklmnopqrstuvwxyz0123456789-_".toList

/-- One base64 character. -/
def b64char (n : Nat) : Char := b64Table.getD n 'A'

/-- The external `cryptojwt.b64e`: URL-safe base64 without `=` padding. -/
def b64e : List Nat → List Char
  | [] => []
  | [a] => [b64char (a / 4), b64char (a % 4 * 16)]
  | [a, b] => [b64char (a / 4), b64char (a % 4 * 16 + b / 16), b64char (b % 16 * 4)]
  | a :: b :: c :: rest =>
      b64char (a / 4) :: b64char (a % 4 * 16 + b / 16) ::
        b64char (b % 16 * 4 + c / 64) :: b64char (c % 64) :: b64e rest

theorem b64e_length (bs : List Nat) : (b64e bs).length = (4 * bs.length + 2) / 3 := by
  induction bs using b64e.induct with
  | case1 => simp [b64e]
  | case2 a => simp [b64e]
  | case3 a b => simp [b64e]
  | case4 a b c rest ih =>
    simp only [b64e, List.length_cons, ih]
    omega

theorem strBytes_length (s : String) : (strBytes s).length = s.toList.length := by
  simp [strBytes]

theorem hexdigest_length (bs : List Nat) : (hexdigest bs).toList.length = 2 * bs.length := by
  simp only [hexdigest]
  show ((bs.map byteHex).flatten).length = 2 * bs.length
  induction bs with
  | nil => simp
  | cons b rest ih => simp [byteHex, ih]; omega

/-- The PKCE-relevant part of the service configuration: the
`code_challenge` sub-dict with its optional `length` and `method` entries
(`None` models the `KeyError` fallback to the default). -/
structure PkceConfig where
  cc_length : Option Nat
  cc_method : Option String
deriving DecidableEq

/-- The `Unsupported` exception raised for an unknown transform. -/
inductive PkceError
  | unsupported (msg : String)
deriving DecidableEq

/-- Result of `add_code_challenge`: the returned request arguments plus the
verifier/method stored into the session (state) database. -/
structure PkceResult where
  code_challenge : String
  code_challenge_method : String
  stored_code_verifier : String
  stored_method : String
deriving DecidableEq

/-- Modelled from the spec: the `CC_METHOD` transform table (missing
`oidcservice/__init__.py`) maps the method name "S256" to the SHA-256 hash
function; the hash itself is the abstract parameter `sha256`. -/
def CC_METHOD (sha256 : List Nat → List Nat) (m : String) : Option (List Nat → List Nat) :=
  if m = "S256" then some sha256 else none

/-- Embeds `add_code_challenge` (`oidcservice/oidc/pkce.py` lines 6-41):
read the configured verifier length (default 64), draw the verifier, read
the method (default "S256"), look the method up in `CC_METHOD` (unknown
methods raise `Unsupported`), hash the verifier, take the *hex digest*,
base64url-encode the bytes of that hex string, and store verifier+method
into the state database. -/
def add_code_challenge (sha256 : List Nat → List Nat) (cfg : PkceConfig) :
    Except PkceError PkceResult :=
  let cv_len := cfg.cc_length.getD 64
  let code_verifier := unreserved cv_len
  let _cv := strBytes code_verifier
  let _method := cfg.cc_method.getD "S256"
  match CC_METHOD sha256 _method with
  | none => .error (.unsupported ("PKCE Transformation method:" ++ _method))
  | some _hash_method =>
    let _hv := hexdigest (_hash_method _cv)
    let code_challenge := String.mk (b64e (strBytes _hv))
    .ok { code_challenge := code_challenge
          code_challenge_method := _method
          stored_code_verifier := code_verifier
          stored_method := _method }

/-! ### Provider preference matching — `oiccli/oic/requests.py` lines 33-64, 210-276 -/

/-- A declared client preference value: a plain string or a list of strings. -/
inductive CPVal
  | str (s : String)
  | listv (l : List String)
deriving DecidableEq

/-- A negotiated behaviour value; `nonev` is Python `None` as assigned by
the missing-capability fallback. -/
inductive Val
  | str (s : String)
  | listv (l : List String)
  | nonev
deriving DecidableEq

/-- Coercion of a client preference into a behaviour value. -/
def CPVal.toVal : CPVal → Val
  | .str s => .str s
  | .listv l => .listv l

/-- The static preference-name → provider-capability-name table
(`PREFERENCE2PROVIDER`), in source dict order. -/
def PREFERENCE2PROVIDER : List (String × String) :=
  [("request_object_signing_alg", "request_object_signing_alg_values_supported"),
   ("request_object_encryption_alg", "request_object_encryption_alg_values_supported"),
   ("request_object_encryption_enc", "request_object_encryption_enc_values_supported"),
   ("userinfo_signed_response_alg", "userinfo_signing_alg_values_supported"),
   ("userinfo_encrypted_response_alg", "userinfo_encryption_alg_values_supported"),
   ("userinfo_encrypted_response_enc", "userinfo_encryption_enc_values_supported"),
   ("id_token_signed_response_alg", "id_token_signing_alg_values_supported"),
   ("id_token_encrypted_response_alg", "id_token_encryption_alg_values_supported"),
   ("id_token_encrypted_response_enc", "id_token_encryption_enc_values_supported"),
   ("default_acr_values", "acr_values_supported"),
   ("subject_type", "subject_types_supported"),
   ("token_endpoint_auth_method", "token_endpoint_auth_methods_supported"),
   ("token_endpoint_auth_signing_alg", "token_endpoint_auth_signing_alg_values_supported"),
   ("response_types", "response_types_supported"),
   ("grant_types", "grant_types_supported")]

/-- The hardcoded provider defaults (`PROVIDER_DEFAULT`). -/
def PROVIDER_DEFAULT : List (String × String) :=
  [("token_endpoint_auth_method", "client_secret_basic"),
   ("id_token_signed_response_alg", "RS256")]

/-- Python `key in PREFERENCE2PROVIDER`. -/
def knownPref (k : String) : Bool :=
  PREFERENCE2PROVIDER.any (fun pp => pp.1 == k)

/-- The externally defined message schemas (`oicmsg` `c_param` tables):
whether a parameter's declared type is a sequence.  `regIsList` is
`RegistrationRequest.c_param`, `pcrIsList` is
`ProviderConfigurationResponse.c_param`; `none` means the parameter is
absent from the table (a `KeyError` on lookup). -/
structure Schema where
  regIsList : String → Option Bool
  pcrIsList : String → Option Bool

/-- The exceptions `match_preferences` can raise: `ConfigurationError`
naming the unmatched preference, an uncaught `KeyError` from a schema
lookup, and an uncaught `IndexError` from `val[0]` on an empty list. -/
inductive MatchErr
  | configError (pref : String)
  | keyError
  | indexError
deriving DecidableEq

/-- What one first-loop iteration does, before the unmatched-preference
check: skip (`continue` when the client declared nothing), insert and
fall through to the check, insert and `continue` (the missing-capability
fallback), no insert and fall through to the check, or an uncaught
`KeyError`. -/
inductive Act
  | skip
  | ins (v : Val)
  | insNoCheck (v : Val)
  | noIns
  | raiseKey

/-- The value-matching part of one iteration of the first loop of
`match_preferences` (lines 222-256), as a function of the static inputs:
look up the client preference (absent: `continue`); look up the
provider's capability list (absent: hardcoded default, else the
type-appropriate empty value, with an uncaught `KeyError` when the
capability is missing from the response schema); a string preference is
kept only when supported; a sequence preference is filtered (sequence
schema type) or resolved to the first supported member (scalar schema
type, with an uncaught `KeyError` when the preference is missing from
the registration schema). -/
def resolve1 (sch : Schema) (cp : List (String × CPVal)) (pcr : List (String × List String))
    (pp : String × String) : Act :=
  match lookupL cp pp.1 with
  | none => .skip
  | some vals =>
    match lookupL pcr pp.2 with
    | none =>
      match lookupL PROVIDER_DEFAULT pp.1 with
      | some d => .insNoCheck (.str d)
      | none =>
        match sch.pcrIsList pp.2 with
        | none => .raiseKey
        | some true => .insNoCheck (.listv [])
        | some false => .insNoCheck .nonev
    | some _pvals =>
      match vals with
      | .str v => if _pvals.contains v then .ins (.str v) else .noIns
      | .listv vs =>
        match sch.regIsList pp.1 with
        | none => .raiseKey
        | some true => .ins (.listv (vs.filter (fun v => _pvals.contains v)))
        | some false =>
          match vs.find? (fun v => _pvals.contains v) with
          | some v => .ins (.str v)
          | none => .noIns

/-- One iteration of the first loop of `match_preferences`: apply
`resolve1` and then, on the fall-through paths, raise `ConfigurationError`
when the preference is still not in `behaviour`.  A previously raised
exception short-circuits the rest of the loop. -/
def step1 (sch : Schema) (cp : List (String × CPVal)) (pcr : List (String × List String))
    (s : List (String × Val) × Option MatchErr) (pp : String × String) :
    List (String × Val) × Option MatchErr :=
  match s with
  | (b, some e) => (b, some e)
  | (b, none) =>
    match resolve1 sch cp pcr pp with
    | .skip => (b, none)
    | .raiseKey => (b, some .keyError)
    | .insNoCheck v => (insertL b pp.1 v, none)
    | .ins v =>
      let b' := insertL b pp.1 v
      if hasKeyL b' pp.1 then (b', none) else (b', some (.configError pp.1))
    | .noIns =>
      if hasKeyL b pp.1 then (b, none) else (b, some (.configError pp.1))

/-- The second-loop collapse of a leftover client preference (lines
266-274): a one-element-or-longer sequence collapses to its head when the
registration schema types the field as a scalar (`val = val[0]`, an
uncaught `IndexError` on an empty list, modelled as `none`); a schema
`KeyError` is caught and leaves the value unchanged. -/
def collapse (sch : Schema) (key : String) (val : CPVal) : Option Val :=
  match sch.regIsList key with
  | none => some val.toVal
  | some true => some val.toVal
  | some false =>
    match val with
    | .str s => some (.str s)
    | .listv [] => none
    | .listv (v :: _) => some (.str v)

/-- One iteration of the second loop of `match_preferences` (lines
262-276): skip preferences already in `behaviour`, collapse the value,
and copy it verbatim only when the preference is not in the known table. -/
def step2 (sch : Schema) (s : List (String × Val) × Option MatchErr)
    (kv : String × CPVal) : List (String × Val) × Option MatchErr :=
  match s with
  | (b, some e) => (b, some e)
  | (b, none) =>
    if hasKeyL b kv.1 then (b, none)
    else
      match collapse sch kv.1 kv.2 with
      | none => (b, some .indexError)
      | some v =>
        if knownPref kv.1 then (b, none) else (insertL b kv.1 v, none)

/-- Embeds `ProviderInfoDiscovery.match_preferences` (lines 210-276) as a
function of the client preferences, the provider configuration response,
the message schemas, and the incoming `behaviour`; the result is the
mutated `behaviour` together with the exception, if any, that aborted the
run. -/
def match_preferences (sch : Schema) (cp : List (String × CPVal))
    (pcr : List (String × List String)) (b0 : List (String × Val)) :
    List (String × Val) × Option MatchErr :=
  cp.foldl (step2 sch) (PREFERENCE2PROVIDER.foldl (step1 sch cp pcr) (b0, none))

/-! ### Authorization request construction — `oiccli/oic/requests.py` lines 76-96

`rndstr` lives in `oiccli/__init__.py`, not part of the sources, and the
base-class `construct` lives in `oiccli/oauth2/requests.py`, also not part
of the sources; both are modelled from the spec. -/

/-- Modelled from the spec: `rndstr(n)` (missing `oiccli/__init__.py`)
returns a random token of length `n`; randomness is irrelevant to the
claims and is modelled deterministically. -/
def rndstr (n : Nat) : String := String.mk (List.replicate n 'a')

/-- The claim-relevant fields of an authorization `request_args` dict /
request record: the optional `nonce` and the optional `response_type`
(a list of response-type values, the type the message schema declares). -/
structure AuthArgs where
  nonce : Option String
  response_type : Option (List String)
deriving DecidableEq

/-- The uncaught `KeyError` from `request_args["response_type"]`. -/
inductive AuthConstructErr
  | keyError
deriving DecidableEq

/-- Modelled from the spec: the OAuth2 base-class `construct` (missing
`oiccli/oauth2/requests.py`) builds the request record from
`request_args`, adding defaults such as `scope`; the `nonce` and
`response_type` parameters are taken verbatim, and absent `request_args`
yields a record without them. -/
def base_authorization_construct (request_args : Option AuthArgs) : AuthArgs :=
  request_args.getD ⟨none, none⟩

/-- Embeds `AuthorizationRequest.construct` (lines 76-96, the nonce logic
plus the base-class call; the request-object wrapping of lines 98-142 runs
only when a `request_param` keyword is present and does not touch the
nonce).  `kwargs_response_type` is the optional `response_type` keyword
argument.  Python `in` on the response-type list is membership. -/
def authorization_construct (request_args : Option AuthArgs)
    (kwargs_response_type : Option (List String)) : Except AuthConstructErr AuthArgs :=
  match request_args with
  | some args =>
    match args.nonce with
    | some _ => .ok (base_authorization_construct (some args))
    | none =>
      match args.response_type with
      | none => .error .keyError
      | some _rt =>
        if _rt.contains "token" || _rt.contains "id_token" then
          .ok (base_authorization_construct (some ⟨some (rndstr 32), args.response_type⟩))
        else
          .ok (base_authorization_construct (some args))
  | none =>
    match kwargs_response_type with
    | some rt =>
      if rt.contains "token" then
        .ok (base_authorization_construct (some ⟨some (rndstr 32), none⟩))
      else
        .ok (base_authorization_construct none)
    | none => .ok (base_authorization_construct (some ⟨some (rndstr 32), none⟩))

/-! ### AccessToken response post-processing — `oiccli/oic/requests.py` lines 181-191 -/

/-- The claim-relevant content of a verified ID token: its optional
`nonce` claim (absent: `KeyError` on `_idt['nonce']`). -/
structure IdTokenClaims where
  nonce : Option String
deriving DecidableEq

/-- An AccessToken response: the optional `id_token` entry (absent:
`KeyError` on `resp['id_token']`, caught). -/
structure TokenResponseMsg where
  id_token : Option IdTokenClaims
deriving DecidableEq

/-- The `ParameterError` raised on a nonce mismatch. -/
inductive TokenParseErr
  | parameterError (msg : String)
deriving DecidableEq

/-- Embeds `AccessTokenRequest._post_parse_response` (lines 181-191):
when the response carries an ID token, compare the nonce stored for this
state (`cli_info.state2nonce[state]`) with the token's `nonce` claim and
raise `ParameterError` on mismatch; a `KeyError` from either lookup is
caught and ignored. -/
def access_token_post_parse (state2nonce : List (String × String))
    (resp : TokenResponseMsg) (state : String) : Option TokenParseErr :=
  match resp.id_token with
  | none => none
  | some _idt =>
    match lookupL state2nonce state, _idt.nonce with
    | some sn, some tn =>
      if sn ≠ tn then some (.parameterError "Someone has messed with \"nonce\"") else none
    | _, _ => none

/-! ### Registration request construction — `oiccli/oic/requests.py` lines 287-327 -/

/-- The claim-relevant attributes of `ClientInfo` as seen by
`create_registration_request`: `behaviour`, the optional `redirect_uris`
and `post_logout_redirect_uris` attributes (absent attribute:
`AttributeError`), the provider-info `require_request_uri_registration`
entry (absent: caught `KeyError`), and the result of
`generate_request_uris`. -/
structure RegClientInfo where
  behaviour : List (String × Val)
  redirect_uris : Option (List String)
  post_logout_redirect_uris : Option (List String)
  require_request_uri_registration : Option Bool
  generated_request_uris : List String

/-- The `MissingRequiredAttribute` exception. -/
inductive RegErr
  | missingRequiredAttribute (attr : String)
deriving DecidableEq

/-- One iteration of the parameter-filling loop of
`create_registration_request` (lines 296-303): the keyword arguments win
over negotiated behaviour, and a parameter found in neither is omitted
(caught `KeyError`s). -/
def regFillStep (kwargs behaviour : List (String × Val)) (req : List (String × Val))
    (prop : String) : List (String × Val) :=
  match lookupL kwargs prop with
  | some v => insertL req prop v
  | none =>
    match lookupL behaviour prop with
    | some v => insertL req prop v
    | none => req

/-- The `post_logout_redirect_uris` copy (lines 305-311): copied from the
client info when absent from the request; a missing attribute
(`AttributeError`) is caught and ignored. -/
def reg_post_logout (ci : RegClientInfo) (req : List (String × Val)) :
    List (String × Val) :=
  if hasKeyL req "post_logout_redirect_uris" then req
  else
    match ci.post_logout_redirect_uris with
    | some l => insertL req "post_logout_redirect_uris" (.listv l)
    | none => req

/-- The trailing `require_request_uri_registration` step (lines 319-325):
attach generated `request_uris` when the provider's discovered info
mandates it (`True` exactly); an absent entry is a caught `KeyError`. -/
def reg_finish (ci : RegClientInfo) (req : List (String × Val)) :
    Except RegErr (List (String × Val)) :=
  match ci.require_request_uri_registration with
  | some true => .ok (insertL req "request_uris" (.listv ci.generated_request_uris))
  | _ => .ok req

/-- Embeds `RegistrationRequest.create_registration_request` (lines
287-327): fill every schema parameter from the keyword arguments first,
else from `behaviour`; copy `post_logout_redirect_uris` from the client
info when absent; ensure `redirect_uris` (copied from the client info,
else `MissingRequiredAttribute`); attach generated `request_uris` when the
provider mandates `require_request_uri_registration`.  `params` is the
externally defined `RegistrationRequest` parameter list. -/
def create_registration_request (params : List String) (ci : RegClientInfo)
    (kwargs : List (String × Val)) : Except RegErr (List (String × Val)) :=
  let req := reg_post_logout ci (params.foldl (regFillStep kwargs ci.behaviour) [])
  if hasKeyL req "redirect_uris" then reg_finish ci req
  else
    match ci.redirect_uris with
    | some l => reg_finish ci (insertL req "redirect_uris" (.listv l))
    | none => .error (.missingRequiredAttribute "redirect_uris")

/-! ### UserInfo request construction — `oiccli/oic/requests.py` lines 360-375

The grant database (`cli_info.grant_db`, `oiccli` base package) and the
base-class `Request.construct` are not part of the sources; both are
modelled from the spec. -/

/-- A stored token as returned by the grant database. -/
structure UIToken where
  access_token : String
deriving DecidableEq

/-- The `MissingParameter` exception. -/
inductive UserInfoErr
  | missingParameter (msg : String)
deriving DecidableEq

/-- Modelled from the spec: the base `Request.construct` (missing
`oiccli/request.py`) validates and returns the record built from
`request_args`. -/
def base_request_construct (request_args : List (String × Val)) : List (String × Val) :=
  request_args

/-- Embeds `UserInfoRequest.construct` (lines 360-375): default the
`request_args` dict, keep an explicit `access_token`; otherwise default
the `scope` keyword to "openid", look a stored token up in the grant
database (modelled from the spec as a scope-indexed lookup), fail with
`MissingParameter` when none is found, else place its `access_token` into
the request arguments. -/
def userinfo_construct (get_token : String → Option UIToken)
    (request_args : Option (List (String × Val))) (kwargs_scope : Option String) :
    Except UserInfoErr (List (String × Val)) :=
  let request_args := request_args.getD []
  if hasKeyL request_args "access_token" then
    .ok (base_request_construct request_args)
  else
    let scope := kwargs_scope.getD "openid"
    match get_token scope with
    | none => .error (.missingParameter "No valid token available")
    | some token =>
      .ok (base_request_construct (insertL request_args "access_token" (.str token.access_token)))

/-! ### Request-object file naming — `oidcservice/oidc/utils.py` lines 50-70 -/

/-- Python `os.path.join(dir, name)` for a directory without a trailing
separator. -/
def pathJoin (dir name : String) : String := dir ++ "/" ++ name

/-- The `while os.path.exists(filename)` retry loop of
`construct_request_uri`: `fileExists` is the filesystem snapshot,
`draws` the successive `rndstr(10)` outputs still available (the loop
gets fresh draws until one is free; an exhausted list models a
non-terminating run and yields `none`).  Note the retry name is the bare
random token, without the ".jwt" suffix. -/
def requestUriLoop (fileExists : String → Bool) (local_dir : String) :
    List String → String → Option String
  | draws, _name =>
    if fileExists (pathJoin local_dir _name) then
      match draws with
      | [] => none
      | r :: rest => requestUriLoop fileExists local_dir rest r
    else some _name

/-- Embeds `construct_request_uri` (lines 50-70): the first candidate name
is `rndstr(10) + ".jwt"` (`firstDraw` is that first `rndstr(10)` output),
colliding names are retried with a fresh bare random token, and the
result is the local `(filename, webname)` pair. -/
def construct_request_uri (fileExists : String → Bool) (firstDraw : String)
    (draws : List String) (local_dir base_path : String) : Option (String × String) :=
  (requestUriLoop fileExists local_dir draws (firstDraw ++ ".jwt")).map
    (fun _name => (pathJoin local_dir _name, base_path ++ _name))

/-! ### Lemmas about the preference-matching loops -/

/-- The unmatched-preference check always passes right after an insert,
so `step1` on an error-free state reduces to the action chosen by
`resolve1`. -/
theorem step1_eq (sch : Schema) (cp : List (String × CPVal)) (pcr : List (String × List String))
    (b : List (String × Val)) (pp : String × String) :
    step1 sch cp pcr (b, none) pp =
      match resolve1 sch cp pcr pp with
      | .skip => (b, none)
      | .raiseKey => (b, some .keyError)
      | .insNoCheck v => (insertL b pp.1 v, none)
      | .ins v => (insertL b pp.1 v, none)
      | .noIns => if hasKeyL b pp.1 then (b, none) else (b, some (.configError pp.1)) := by
  cases hr : resolve1 sch cp pcr pp <;> simp [step1, hr, hasKeyL_insertL_self]

/-- `resolve1` skips exactly when the client declared no preference. -/
theorem resolve1_eq_skip_iff (sch : Schema) (cp : List (String × CPVal))
    (pcr : List (String × List String)) (pp : String × String) :
    resolve1 sch cp pcr pp = .skip ↔ lookupL cp pp.1 = none := by
  constructor
  · intro h
    cases hcp : lookupL cp pp.1 with
    | none => rfl
    | some vals =>
      exfalso
      unfold resolve1 at h
      cases vals with
      | str v =>
        simp only [hcp] at h
        cases hpv : lookupL pcr pp.2 with
        | none =>
          simp only [hpv] at h
          cases hd : lookupL PROVIDER_DEFAULT pp.1 with
          | some d => simp only [hd] at h; simp at h
          | none =>
            simp only [hd] at h
            cases hs : sch.pcrIsList pp.2 with
            | none => simp only [hs] at h; simp at h
            | some bb => simp only [hs] at h; cases bb <;> simp at h
        | some pvals =>
          simp only [hpv] at h
          split at h <;> simp at h
      | listv vs =>
        simp only [hcp] at h
        cases hpv : lookupL pcr pp.2 with
        | none =>
          simp only [hpv] at h
          cases hd : lookupL PROVIDER_DEFAULT pp.1 with
          | some d => simp only [hd] at h; simp at h
          | none =>
            simp only [hd] at h
            cases hs : sch.pcrIsList pp.2 with
            | none => simp only [hs] at h; simp at h
            | some bb => simp only [hs] at h; cases bb <;> simp at h
        | some pvals =>
          simp only [hpv] at h
          cases hs : sch.regIsList pp.1 with
          | none => simp only [hs] at h; simp at h
          | some bb =>
            simp only [hs] at h
            cases bb
            · cases hf : vs.find? (fun x => pvals.contains x) with
              | none => simp only [hf] at h; simp at h
              | some v => simp only [hf] at h; simp at h
            · simp at h
  · intro h; unfold resolve1; rw [h]

/-- An already-raised exception short-circuits the remainder of the
first loop. -/
theorem fold1_err (sch : Schema) (cp : List (String × CPVal)) (pcr : List (String × List String))
    (L : List (String × String)) (b : List (String × Val)) (e : MatchErr) :
    L.foldl (step1 sch cp pcr) (b, some e) = (b, some e) := by
  induction L with
  | nil => rfl
  | cons pp rest ih => rw [List.foldl_cons]; exact ih

/-- An already-raised exception short-circuits the remainder of the
second loop. -/
theorem fold2_err (sch : Schema) (L : List (String × CPVal)) (b : List (String × Val))
    (e : MatchErr) : L.foldl (step2 sch) (b, some e) = (b, some e) := by
  induction L with
  | nil => rfl
  | cons kv rest ih => rw [List.foldl_cons]; exact ih

/-- `step2` on an error-free state, with the outer match reduced. -/
theorem step2_eq (sch : Schema) (b : List (String × Val)) (kv : String × CPVal) :
    step2 sch (b, none) kv =
      if hasKeyL b kv.1 then (b, none)
      else
        match collapse sch kv.1 kv.2 with
        | none => (b, some .indexError)
        | some v => if knownPref kv.1 then (b, none) else (insertL b kv.1 v, none) := rfl

/-- The first loop only ever adds keys to `behaviour`. -/
theorem step1_hasKey_mono (sch : Schema) (cp : List (String × CPVal))
    (pcr : List (String × List String)) (s : List (String × Val) × Option MatchErr)
    (pp : String × String) {k : String} (h : hasKeyL s.1 k = true) :
    hasKeyL (step1 sch cp pcr s pp).1 k = true := by
  obtain ⟨b, e⟩ := s
  cases e with
  | some e => exact h
  | none =>
    rw [step1_eq]
    cases resolve1 sch cp pcr pp with
    | skip => exact h
    | raiseKey => exact h
    | insNoCheck v => exact hasKeyL_insertL_of _ _ h
    | ins v => exact hasKeyL_insertL_of _ _ h
    | noIns => by_cases hk : hasKeyL b pp.1 <;> simp [hk, h]

theorem fold1_hasKey_mono (sch : Schema) (cp : List (String × CPVal))
    (pcr : List (String × List String)) (L : List (String × String))
    (s : List (String × Val) × Option MatchErr) {k : String} (h : hasKeyL s.1 k = true) :
    hasKeyL (L.foldl (step1 sch cp pcr) s).1 k = true := by
  induction L generalizing s with
  | nil => exact h
  | cons pp rest ih =>
    rw [List.foldl_cons]
    exact ih _ (step1_hasKey_mono sch cp pcr s pp h)

/-- A first-loop iteration leaves every other preference's binding alone. -/
theorem step1_lookup_other (sch : Schema) (cp : List (String × CPVal))
    (pcr : List (String × List String)) (s : List (String × Val) × Option MatchErr)
    (pp : String × String) {k : String} (h : pp.1 ≠ k) :
    lookupL (step1 sch cp pcr s pp).1 k = lookupL s.1 k := by
  obtain ⟨b, e⟩ := s
  cases e with
  | some e => rfl
  | none =>
    rw [step1_eq]
    cases resolve1 sch cp pcr pp with
    | skip => rfl
    | raiseKey => rfl
    | insNoCheck v => exact lookupL_insertL_ne b v (Ne.symm h)
    | ins v => exact lookupL_insertL_ne b v (Ne.symm h)
    | noIns => by_cases hk : hasKeyL b pp.1 <;> simp [hk]

theorem fold1_lookup_other (sch : Schema) (cp : List (String × CPVal))
    (pcr : List (String × List String)) (L : List (String × String))
    (s : List (String × Val) × Option MatchErr) {k : String}
    (h : ∀ pp ∈ L, pp.1 ≠ k) :
    lookupL (L.foldl (step1 sch cp pcr) s).1 k = lookupL s.1 k := by
  induction L generalizing s with
  | nil => rfl
  | cons pp rest ih =>
    rw [List.foldl_cons, ih _ (fun qq hq => h qq (List.mem_cons_of_mem pp hq)),
      step1_lookup_other sch cp pcr s pp (h pp (List.mem_cons_self pp rest))]

/-- The second loop inserts only absent keys, so it preserves every
existing binding. -/
theorem step2_preserves_binding (sch : Schema) (s : List (String × Val) × Option MatchErr)
    (kv : String × CPVal) {k : String} {v : Val} (h : lookupL s.1 k = some v) :
    lookupL (step2 sch s kv).1 k = some v := by
  obtain ⟨b, e⟩ := s
  cases e with
  | some e => exact h
  | none =>
    unfold step2
    by_cases hk : hasKeyL b kv.1
    · simp [hk]; exact h
    · simp [hk]
      cases collapse sch kv.1 kv.2 with
      | none => exact h
      | some w =>
        by_cases hkn : knownPref kv.1
        · simp [hkn]; exact h
        · simp [hkn]
          have hfresh : lookupL b kv.1 = none := by
            by_contra hne
            exact hk (by simp [hasKeyL, Option.isSome_iff_ne_none, hne])
          exact lookupL_insertL_of_fresh _ hfresh h

theorem fold2_preserves_binding (sch : Schema) (L : List (String × CPVal))
    (s : List (String × Val) × Option MatchErr) {k : String} {v : Val}
    (h : lookupL s.1 k = some v) :
    lookupL (L.foldl (step2 sch) s).1 k = some v := by
  induction L generalizing s with
  | nil => exact h
  | cons kv rest ih =>
    rw [List.foldl_cons]
    exact ih _ (step2_preserves_binding sch s kv h)

theorem fold2_hasKey_mono (sch : Schema) (L : List (String × CPVal))
    (s : List (String × Val) × Option MatchErr) {k : String} (h : hasKeyL s.1 k = true) :
    hasKeyL (L.foldl (step2 sch) s).1 k = true := by
  obtain ⟨v, hv⟩ := Option.isSome_iff_exists.mp h
  simp [hasKeyL, fold2_preserves_binding sch L s hv]

/-- The only exception the second loop raises itself is the `IndexError`
from collapsing an empty sequence. -/
theorem fold2_err_from (sch : Schema) (L : List (String × CPVal)) :
    ∀ (b b1 : List (String × Val)) (e : MatchErr),
      L.foldl (step2 sch) (b, none) = (b1, some e) → e = .indexError := by
  induction L with
  | nil => intro b b1 e h; simp at h
  | cons kv rest ih =>
    intro b b1 e h
    rw [List.foldl_cons, step2_eq] at h
    by_cases hk : hasKeyL b kv.1 = true
    · rw [if_pos hk] at h; exact ih b b1 e h
    · rw [if_neg hk] at h
      cases hc : collapse sch kv.1 kv.2 with
      | none =>
        simp only [hc] at h
        rw [fold2_err] at h
        injection h with h1 h2
        injection h2 with h3
        exact h3.symm
      | some w =>
        simp only [hc] at h
        by_cases hkn : knownPref kv.1 = true
        · rw [if_pos hkn] at h; exact ih b b1 e h
        · rw [if_neg hkn] at h; exact ih _ b1 e h

/-- Replaying the first loop: starting it again from any behaviour that
preserves all bindings of the first run's final behaviour (and equals it
when the first run raised) changes nothing and reproduces the exception.
The known-preference list must have distinct keys (it is a Python dict). -/
theorem fold1_replay (sch : Schema) (cp : List (String × CPVal))
    (pcr : List (String × List String)) :
    ∀ (L : List (String × String)) (b b1 bE : List (String × Val)) (e1 : Option MatchErr),
      (L.map Prod.fst).Nodup →
      L.foldl (step1 sch cp pcr) (b, none) = (b1, e1) →
      (∀ k v, lookupL b1 k = some v → lookupL bE k = some v) →
      (∀ e, e1 = some e → bE = b1) →
      L.foldl (step1 sch cp pcr) (bE, none) = (bE, e1) := by
  intro L
  induction L with
  | nil =>
    intro b b1 bE e1 _ hrun hpres herr
    injection hrun with h1 h2
    simp [h2]
  | cons pp rest ih =>
    intro b b1 bE e1 hnd hrun hpres herr
    have hnotin : ∀ qq ∈ rest, qq.1 ≠ pp.1 := by
      intro qq hq he
      have : pp.1 ∈ rest.map Prod.fst := he ▸ List.mem_map_of_mem Prod.fst hq
      exact (List.nodup_cons.mp (by simpa using hnd)).1 this
    have hndr : (rest.map Prod.fst).Nodup := (List.nodup_cons.mp (by simpa using hnd)).2
    rw [List.foldl_cons] at hrun ⊢
    rw [step1_eq] at hrun ⊢
    cases hr : resolve1 sch cp pcr pp with
    | skip =>
      simp only [hr] at hrun ⊢
      exact ih b b1 bE e1 hndr hrun hpres herr
    | raiseKey =>
      simp only [hr] at hrun ⊢
      rw [fold1_err] at hrun
      injection hrun with h1 h2
      rw [fold1_err, h2]
    | insNoCheck v =>
      simp only [hr] at hrun ⊢
      have hb1 : lookupL b1 pp.1 = some v := by
        have := fold1_lookup_other sch cp pcr rest (insertL b pp.1 v, none) hnotin
        rw [hrun] at this
        rw [this, lookupL_insertL_self]
      rw [insertL_eq_of_lookupL (hpres pp.1 v hb1)]
      exact ih _ b1 bE e1 hndr hrun hpres herr
    | ins v =>
      simp only [hr] at hrun ⊢
      have hb1 : lookupL b1 pp.1 = some v := by
        have := fold1_lookup_other sch cp pcr rest (insertL b pp.1 v, none) hnotin
        rw [hrun] at this
        rw [this, lookupL_insertL_self]
      rw [insertL_eq_of_lookupL (hpres pp.1 v hb1)]
      exact ih _ b1 bE e1 hndr hrun hpres herr
    | noIns =>
      simp only [hr] at hrun ⊢
      by_cases hk : hasKeyL b pp.1 = true
      · rw [if_pos hk] at hrun
        obtain ⟨w, hw⟩ := Option.isSome_iff_exists.mp hk
        have hb1 : lookupL b1 pp.1 = some w := by
          have := fold1_lookup_other sch cp pcr rest (b, none) hnotin
          rw [hrun] at this
          rw [this]; exact hw
        have hkE : hasKeyL bE pp.1 = true := by
          simp [hasKeyL, hpres pp.1 w hb1]
        rw [if_pos hkE]
        exact ih b b1 bE e1 hndr hrun hpres herr
      · rw [if_neg hk] at hrun
        rw [fold1_err] at hrun
        injection hrun with h1 h2
        have hbe : bE = b := by rw [herr _ h2.symm, ← h1]
        rw [hbe, if_neg hk, fold1_err, h2]

/-- Replaying the second loop from its own final behaviour changes
nothing and reproduces the exception. -/
theorem fold2_replay (sch : Schema) :
    ∀ (L : List (String × CPVal)) (b b1 : List (String × Val)) (e1 : Option MatchErr),
      L.foldl (step2 sch) (b, none) = (b1, e1) →
      L.foldl (step2 sch) (b1, none) = (b1, e1) := by
  intro L
  induction L with
  | nil =>
    intro b b1 e1 hrun
    injection hrun with h1 h2
    simp [h1, h2]
  | cons kv rest ih =>
    intro b b1 e1 hrun
    rw [List.foldl_cons] at hrun ⊢
    rw [step2_eq] at hrun ⊢
    by_cases hk : hasKeyL b kv.1 = true
    · rw [if_pos hk] at hrun
      obtain ⟨w, hw⟩ := Option.isSome_iff_exists.mp hk
      have hb1 : lookupL b1 kv.1 = some w := by
        have := fold2_preserves_binding sch rest (b, none) hw
        rwa [hrun] at this
      have hkE : hasKeyL b1 kv.1 = true := by simp [hasKeyL, hb1]
      rw [if_pos hkE]
      exact ih b b1 e1 hrun
    · rw [if_neg hk] at hrun
      cases hc : collapse sch kv.1 kv.2 with
      | none =>
        simp only [hc] at hrun
        rw [fold2_err] at hrun
        injection hrun with h1 h2
        subst h1
        rw [if_neg hk]
        simp only [hc]
        rw [fold2_err, h2]
      | some w =>
        simp only [hc] at hrun
        by_cases hkn : knownPref kv.1 = true
        · rw [if_pos hkn] at hrun
          by_cases hkE : hasKeyL b1 kv.1 = true
          · rw [if_pos hkE]
            exact ih b b1 e1 hrun
          · rw [if_neg hkE]
            simp only [hc]
            rw [if_pos hkn]
            exact ih b b1 e1 hrun
        · rw [if_neg hkn] at hrun
          have hb1 : lookupL b1 kv.1 = some w := by
            have := fold2_preserves_binding sch rest (insertL b kv.1 w, none)
              (lookupL_insertL_self b kv.1 w)
            rwa [hrun] at this
          have hkE : hasKeyL b1 kv.1 = true := by simp [hasKeyL, hb1]
          rw [if_pos hkE]
          exact ih _ b1 e1 hrun

/-- When the first loop finishes without an exception, every declared
known preference has been resolved into `behaviour`. -/
theorem fold1_resolved (sch : Schema) (cp : List (String × CPVal))
    (pcr : List (String × List String)) :
    ∀ (L : List (String × String)) (b b1 : List (String × Val)) (p prov : String),
      (p, prov) ∈ L → (lookupL cp p).isSome →
      L.foldl (step1 sch cp pcr) (b, none) = (b1, none) →
      hasKeyL b1 p = true := by
  intro L
  induction L with
  | nil => intro b b1 p prov hmem; cases hmem
  | cons pp rest ih =>
    intro b b1 p prov hmem hcp hrun
    rw [List.foldl_cons] at hrun
    rcases List.mem_cons.mp hmem with heq | hmem'
    · subst heq
      rw [step1_eq] at hrun
      cases hr : resolve1 sch cp pcr (p, prov) with
      | skip =>
        exact absurd ((resolve1_eq_skip_iff sch cp pcr (p, prov)).mp hr)
          (by simpa [Option.isSome_iff_ne_none] using hcp)
      | raiseKey =>
        simp only [hr] at hrun
        rw [fold1_err] at hrun
        injection hrun with h1 h2
        cases h2
      | insNoCheck v =>
        simp only [hr] at hrun
        have := fold1_hasKey_mono sch cp pcr rest (insertL b p v, none)
          (hasKeyL_insertL_self b p v)
        rwa [hrun] at this
      | ins v =>
        simp only [hr] at hrun
        have := fold1_hasKey_mono sch cp pcr rest (insertL b p v, none)
          (hasKeyL_insertL_self b p v)
        rwa [hrun] at this
      | noIns =>
        simp only [hr] at hrun
        by_cases hk : hasKeyL b p = true
        · rw [if_pos hk] at hrun
          have := fold1_hasKey_mono sch cp pcr rest (b, none) hk
          rwa [hrun] at this
        · rw [if_neg hk] at hrun
          rw [fold1_err] at hrun
          injection hrun with h1 h2
          cases h2
    · rcases hstep : step1 sch cp pcr (b, none) pp with ⟨bb, ee⟩
      rw [hstep] at hrun
      cases ee with
      | some e =>
        rw [fold1_err] at hrun
        injection hrun with h1 h2
        cases h2
      | none => exact ih bb b1 p prov hmem' hcp hrun

/-- A `ConfigurationError` raised by the first loop names a declared,
known, still-unresolved preference, and aborts with that preference
absent from the final behaviour. -/
theorem fold1_configError (sch : Schema) (cp : List (String × CPVal))
    (pcr : List (String × List String)) :
    ∀ (L : List (String × String)) (b b1 : List (String × Val)) (p : String),
      L.foldl (step1 sch cp pcr) (b, none) = (b1, some (.configError p)) →
      p ∈ L.map Prod.fst ∧ (lookupL cp p).isSome ∧ hasKeyL b1 p = false := by
  intro L
  induction L with
  | nil => intro b b1 p h; simp at h
  | cons pp rest ih =>
    intro b b1 p hrun
    rw [List.foldl_cons, step1_eq] at hrun
    cases hr : resolve1 sch cp pcr pp with
    | skip =>
      simp only [hr] at hrun
      obtain ⟨h1, h2, h3⟩ := ih b b1 p hrun
      exact ⟨List.mem_cons_of_mem _ h1, h2, h3⟩
    | raiseKey =>
      simp only [hr] at hrun
      rw [fold1_err] at hrun
      injection hrun with h1 h2
      injection h2 with h3
      cases h3
    | insNoCheck v =>
      simp only [hr] at hrun
      obtain ⟨h1, h2, h3⟩ := ih _ b1 p hrun
      exact ⟨List.mem_cons_of_mem _ h1, h2, h3⟩
    | ins v =>
      simp only [hr] at hrun
      obtain ⟨h1, h2, h3⟩ := ih _ b1 p hrun
      exact ⟨List.mem_cons_of_mem _ h1, h2, h3⟩
    | noIns =>
      simp only [hr] at hrun
      by_cases hk : hasKeyL b pp.1 = true
      · rw [if_pos hk] at hrun
        obtain ⟨h1, h2, h3⟩ := ih b b1 p hrun
        exact ⟨List.mem_cons_of_mem _ h1, h2, h3⟩
      · rw [if_neg hk] at hrun
        rw [fold1_err] at hrun
        injection hrun with h1 h2
        injection h2 with h3
        injection h3 with h4
        subst h1
        subst h4
        refine ⟨by simp, ?_, by simpa using hk⟩
        have : resolve1 sch cp pcr pp ≠ .skip := by rw [hr]; intro hh; cases hh
        have hlk : lookupL cp pp.1 ≠ none :=
          fun hn => this ((resolve1_eq_skip_iff sch cp pcr pp).mpr hn)
        simpa [Option.isSome_iff_ne_none] using hlk

/-- The resolved value of a scalar-typed sequence preference: the first
client-preferred value the provider supports. -/
theorem fold1_scalar_pick (sch : Schema) (cp : List (String × CPVal))
    (pcr : List (String × List String)) :
    ∀ (L : List (String × String)) (b b1 : List (String × Val))
      (p prov : String) (vs pvals : List String) (v : String) (e1 : Option MatchErr),
      (L.map Prod.fst).Nodup →
      (p, prov) ∈ L →
      lookupL cp p = some (.listv vs) →
      lookupL pcr prov = some pvals →
      sch.regIsList p = some false →
      vs.find? (fun x => pvals.contains x) = some v →
      L.foldl (step1 sch cp pcr) (b, none) = (b1, e1) →
      e1 = none →
      lookupL b1 p = some (.str v) := by
  intro L
  induction L with
  | nil => intro b b1 p prov vs pvals v e1 _ hmem; cases hmem
  | cons pp rest ih =>
    intro b b1 p prov vs pvals v e1 hnd hmem hcp hpcr hsch hfind hrun he1
    have hndr : (rest.map Prod.fst).Nodup := (List.nodup_cons.mp (by simpa using hnd)).2
    rw [List.foldl_cons, step1_eq] at hrun
    rcases List.mem_cons.mp hmem with heq | hmem'
    · subst heq
      have hr : resolve1 sch cp pcr (p, prov) = .ins (.str v) := by
        unfold resolve1
        simp only [hcp, hpcr, hsch, hfind]
      simp only [hr] at hrun
      have hnotin : ∀ qq ∈ rest, qq.1 ≠ p := by
        intro qq hq he
        have : p ∈ rest.map Prod.fst := he ▸ List.mem_map_of_mem Prod.fst hq
        exact (List.nodup_cons.mp (by simpa using hnd)).1 this
      have := fold1_lookup_other sch cp pcr rest (insertL b p (.str v), none) hnotin
      rw [hrun] at this
      rw [this, lookupL_insertL_self]
    · rcases hstep : step1 sch cp pcr (b, none) pp with ⟨bb, ee⟩
      rw [step1_eq] at hstep
      rw [hstep] at hrun
      cases ee with
      | some e =>
        rw [fold1_err] at hrun
        injection hrun with h1 h2
        rw [he1] at h2
        cases h2
      | none => exact ih bb b1 p prov vs pvals v e1 hndr hmem' hcp hpcr hsch hfind hrun he1

/-! ### Auxiliary lemmas for the remaining builders -/

theorem hasKeyL_insertL_ne {β : Type} (m : List (String × β)) {k k' : String} (v : β)
    (h : k' ≠ k) : hasKeyL (insertL m k v) k' = hasKeyL m k' := by
  simp [hasKeyL, lookupL_insertL_ne m v h]

/-- A key found in neither the keyword arguments nor behaviour is never
added by the registration parameter-filling loop. -/
theorem regFill_no_key (kwargs behaviour : List (String × Val)) {k : String}
    (h1 : lookupL kwargs k = none) (h2 : lookupL behaviour k = none) :
    ∀ (params : List String) (acc : List (String × Val)), hasKeyL acc k = false →
      hasKeyL (params.foldl (regFillStep kwargs behaviour) acc) k = false := by
  intro params
  induction params with
  | nil => intro acc h; exact h
  | cons prop rest ih =>
    intro acc hacc
    rw [List.foldl_cons]
    apply ih
    unfold regFillStep
    by_cases hp : prop = k
    · subst hp
      simp only [h1, h2]
      exact hacc
    · cases hkw : lookupL kwargs prop with
      | some v => rw [hasKeyL_insertL_ne acc v (fun he => hp he.symm)]; exact hacc
      | none =>
        cases hbh : lookupL behaviour prop with
        | some v => rw [hasKeyL_insertL_ne acc v (fun he => hp he.symm)]; exact hacc
        | none => exact hacc

/-- The `post_logout_redirect_uris` copy never touches `redirect_uris`. -/
theorem reg_post_logout_no_redirect (ci : RegClientInfo) (req : List (String × Val))
    (h : hasKeyL req "redirect_uris" = false) :
    hasKeyL (reg_post_logout ci req) "redirect_uris" = false := by
  unfold reg_post_logout
  by_cases hk : hasKeyL req "post_logout_redirect_uris" = true
  · rw [if_pos hk]; exact h
  · rw [if_neg hk]
    cases ci.post_logout_redirect_uris with
    | some l => rw [hasKeyL_insertL_ne req _ (by decide)]; exact h
    | none => exact h

/-- The trailing `request_uris` step succeeds and preserves the
`redirect_uris` binding. -/
theorem reg_finish_redirect (ci : RegClientInfo) (req : List (String × Val)) {w : Val}
    (h : lookupL req "redirect_uris" = some w) :
    Except.map (fun r => lookupL r "redirect_uris") (reg_finish ci req) = .ok (some w) := by
  unfold reg_finish
  cases hreq : ci.require_request_uri_registration with
  | some bb =>
    cases bb
    · simp [Except.map, h]
    · simp [Except.map, lookupL_insertL_ne req _ (by decide : "redirect_uris" ≠ "request_uris"), h]
  | none => simp [Except.map, h]

/-- The collision-retry loop only returns names whose file does not
exist. -/
theorem requestUriLoop_no_collision (fileExists : String → Bool) (local_dir : String) :
    ∀ (draws : List String) (name nm : String),
      requestUriLoop fileExists local_dir draws name = some nm →
      fileExists (pathJoin local_dir nm) = false := by
  intro draws
  induction draws with
  | nil =>
    intro name nm h
    unfold requestUriLoop at h
    cases hex : fileExists (pathJoin local_dir name) with
    | true => rw [hex] at h; simp at h
    | false =>
      rw [hex] at h
      simp only [Bool.false_eq_true, if_false] at h
      injection h with h1
      rw [← h1]
      exact hex
  | cons r rest ih =>
    intro name nm h
    unfold requestUriLoop at h
    cases hex : fileExists (pathJoin local_dir name) with
    | true =>
      rw [hex] at h
      simp only [if_true] at h
      exact ih r nm h
    | false =>
      rw [hex] at h
      simp only [Bool.false_eq_true, if_false] at h
      injection h with h1
      rw [← h1]
      exact hex

/-- `knownPref` is membership among the known preference names. -/
theorem knownPref_iff (p : String) :
    knownPref p = true ↔ p ∈ PREFERENCE2PROVIDER.map Prod.fst := by
  simp [knownPref, List.any_eq_true, List.mem_map]

/-- Modelled from the spec: the scalar-versus-sequence shapes of the
externally defined `RegistrationRequest.c_param` entries relevant to
preference matching and registration. -/
def REG_PARAM_IS_LIST : List (String × Bool) :=
  [("redirect_uris", true),
   ("response_types", true),
   ("grant_types", true),
   ("default_acr_values", true),
   ("request_uris", true),
   ("post_logout_redirect_uris", true),
   ("request_object_signing_alg", false),
   ("request_object_encryption_alg", false),
   ("request_object_encryption_enc", false),
   ("userinfo_signed_response_alg", false),
   ("userinfo_encrypted_response_alg", false),
   ("userinfo_encrypted_response_enc", false),
   ("id_token_signed_response_alg", false),
   ("id_token_encrypted_response_alg", false),
   ("id_token_encrypted_response_enc", false),
   ("subject_type", false),
   ("token_endpoint_auth_method", false),
   ("token_endpoint_auth_signing_alg", false),
   ("application_type", false)]

/-- Modelled from the spec: the concrete message schemas — every known
provider capability is a sequence-typed `ProviderConfigurationResponse`
field, and registration parameters follow `REG_PARAM_IS_LIST`. -/
def schemaOidc : Schema :=
  ⟨fun k => lookupL REG_PARAM_IS_LIST k,
   fun k => if (PREFERENCE2PROVIDER.map Prod.snd).contains k then some true else none⟩

/-! ### The claims -/

/-- C4: for every client configuration (preferences, schemas, starting
behaviour) and provider configuration, running `match_preferences` twice
in a row with the same provider configuration leaves behaviour (and the
raised exception, if any) identical to running it once. -/
theorem claim_C4_match_idempotent (sch : Schema) (cp : List (String × CPVal))
    (pcr : List (String × List String)) (b0 : List (String × Val)) :
    match_preferences sch cp pcr (match_preferences sch cp pcr b0).1 =
      match_preferences sch cp pcr b0 := by
  rcases h1 : PREFERENCE2PROVIDER.foldl (step1 sch cp pcr) (b0, none) with ⟨bA, eA⟩
  cases eA with
  | some e =>
    have hr : match_preferences sch cp pcr b0 = (bA, some e) := by
      unfold match_preferences; rw [h1, fold2_err]
    rw [hr]
    show match_preferences sch cp pcr bA = (bA, some e)
    have hrep : PREFERENCE2PROVIDER.foldl (step1 sch cp pcr) (bA, none) = (bA, some e) :=
      fold1_replay sch cp pcr PREFERENCE2PROVIDER b0 bA bA (some e) (by decide) h1
        (fun k v hv => hv) (fun _ _ => rfl)
    unfold match_preferences
    rw [hrep, fold2_err]
  | none =>
    rcases h2 : cp.foldl (step2 sch) (bA, none) with ⟨bF, e2⟩
    have hr : match_preferences sch cp pcr b0 = (bF, e2) := by
      unfold match_preferences; rw [h1, h2]
    rw [hr]
    show match_preferences sch cp pcr bF = (bF, e2)
    have hpres : ∀ k v, lookupL bA k = some v → lookupL bF k = some v := by
      intro k v hv
      have := fold2_preserves_binding sch cp (bA, none) hv
      rwa [h2] at this
    have hrep1 : PREFERENCE2PROVIDER.foldl (step1 sch cp pcr) (bF, none) = (bF, none) :=
      fold1_replay sch cp pcr PREFERENCE2PROVIDER b0 bA bF none (by decide) h1 hpres
        (fun e he => by cases he)
    unfold match_preferences
    rw [hrep1]
    exact fold2_replay sch cp bA bF e2 h2

/-- C5: for every known preference whose registration-schema field is
scalar-typed and whose declared client preference is a sequence, an
error-free `match_preferences` run resolves behaviour to the first
client-preferred value that the provider's capability list supports. -/
theorem claim_C5_scalar_preference (sch : Schema) (cp : List (String × CPVal))
    (pcr : List (String × List String)) (b0 bF : List (String × Val))
    (p prov v : String) (vs pvals : List String)
    (hmem : (p, prov) ∈ PREFERENCE2PROVIDER)
    (hsch : sch.regIsList p = some false)
    (hcp : lookupL cp p = some (.listv vs))
    (hpcr : lookupL pcr prov = some pvals)
    (hfind : vs.find? (fun x => pvals.contains x) = some v)
    (hrun : match_preferences sch cp pcr b0 = (bF, none)) :
    lookupL bF p = some (.str v) := by
  unfold match_preferences at hrun
  rcases h1 : PREFERENCE2PROVIDER.foldl (step1 sch cp pcr) (b0, none) with ⟨bA, eA⟩
  rw [h1] at hrun
  cases eA with
  | some e =>
    rw [fold2_err] at hrun
    injection hrun with ha hb
    cases hb
  | none =>
    have hA : lookupL bA p = some (.str v) :=
      fold1_scalar_pick sch cp pcr PREFERENCE2PROVIDER b0 bA p prov vs pvals v none
        (by decide) hmem hcp hpcr hsch hfind h1 rfl
    have := fold2_preserves_binding sch cp (bA, none) hA
    rwa [hrun] at this

/-- C5 witness: the spec scenario — client preference
`["client_secret_post", "client_secret_basic"]` against provider support
`["client_secret_basic"]` resolves `token_endpoint_auth_method` to the
scalar `"client_secret_basic"`. -/
theorem claim_C5_witness :
    lookupL [("token_endpoint_auth_method", Val.str "client_secret_basic")]
      "token_endpoint_auth_method" = some (.str "client_secret_basic") :=
  claim_C5_scalar_preference schemaOidc
    [("token_endpoint_auth_method", .listv ["client_secret_post", "client_secret_basic"])]
    [("token_endpoint_auth_methods_supported", ["client_secret_basic"])]
    [] [("token_endpoint_auth_method", Val.str "client_secret_basic")]
    "token_endpoint_auth_method" "token_endpoint_auth_methods_supported"
    "client_secret_basic"
    ["client_secret_post", "client_secret_basic"] ["client_secret_basic"]
    (by decide) rfl rfl rfl rfl rfl

/-- C6: a `ConfigurationError` raised by `match_preferences` names a
declared, known preference that remains unresolved in behaviour; and
conversely, an error-free run leaves every declared known preference
resolved into behaviour. -/
theorem claim_C6_unmatched_preference (sch : Schema) (cp : List (String × CPVal))
    (pcr : List (String × List String)) (b0 : List (String × Val)) (p : String) :
    ((match_preferences sch cp pcr b0).2 = some (.configError p) →
      knownPref p = true ∧ (lookupL cp p).isSome = true ∧
      hasKeyL (match_preferences sch cp pcr b0).1 p = false) ∧
    (∀ prov, (p, prov) ∈ PREFERENCE2PROVIDER → (lookupL cp p).isSome = true →
      (match_preferences sch cp pcr b0).2 = none →
      hasKeyL (match_preferences sch cp pcr b0).1 p = true) := by
  rcases h1 : PREFERENCE2PROVIDER.foldl (step1 sch cp pcr) (b0, none) with ⟨bA, eA⟩
  cases eA with
  | some e =>
    have hr : match_preferences sch cp pcr b0 = (bA, some e) := by
      unfold match_preferences; rw [h1, fold2_err]
    rw [hr]
    constructor
    · intro h2
      have h3 : e = .configError p := by simpa using h2
      subst h3
      obtain ⟨hm, hs, hk⟩ := fold1_configError sch cp pcr PREFERENCE2PROVIDER b0 bA p h1
      exact ⟨(knownPref_iff p).mpr hm, hs, by simpa using hk⟩
    · intro prov hmem hcp h2
      exact absurd h2 (by simp)
  | none =>
    rcases h2 : cp.foldl (step2 sch) (bA, none) with ⟨bF, e2⟩
    have hr : match_preferences sch cp pcr b0 = (bF, e2) := by
      unfold match_preferences; rw [h1, h2]
    rw [hr]
    constructor
    · intro h3
      have he2 : e2 = some (.configError p) := by simpa using h3
      have hix := fold2_err_from sch cp bA bF (.configError p) (he2 ▸ h2)
      simp at hix
    · intro prov hmem hcp h3
      have hA : hasKeyL bA p = true :=
        fold1_resolved sch cp pcr PREFERENCE2PROVIDER b0 bA p prov hmem hcp h1
      have := fold2_hasKey_mono sch cp (bA, none) hA
      rw [h2] at this
      simpa using this

/-- C6 witness: declaring `subject_type = "pairwise"` against a provider
supporting only `"public"` raises a `ConfigurationError` naming
`subject_type`, which stays unresolved. -/
theorem claim_C6_witness :
    knownPref "subject_type" = true ∧
    (lookupL [("subject_type", CPVal.str "pairwise")] "subject_type").isSome = true ∧
    hasKeyL (match_preferences schemaOidc [("subject_type", CPVal.str "pairwise")]
        [("subject_types_supported", ["public"])] []).1 "subject_type" = false :=
  (claim_C6_unmatched_preference schemaOidc [("subject_type", CPVal.str "pairwise")]
      [("subject_types_supported", ["public"])] [] "subject_type").1 rfl

/-- C1: `add_code_challenge` with method S256 generates a verifier of the
configured length (default 64) over the unreserved alphabet and a
deterministic challenge — but the challenge it computes is the base64url
encoding of the ASCII *hex digest* of SHA-256(verifier), which always
differs from the base64url encoding of the raw SHA-256 digest that the
claim (and RFC 7636) prescribe. -/
theorem claim_C1_pkce_challenge (sha256 : List Nat → List Nat) (cfg : PkceConfig)
    (hlen : (sha256 (strBytes (unreserved (cfg.cc_length.getD 64)))).length = 32)
    (hmeth : cfg.cc_method.getD "S256" = "S256") :
    add_code_challenge sha256 cfg =
      .ok ⟨String.mk (b64e (strBytes (hexdigest
              (sha256 (strBytes (unreserved (cfg.cc_length.getD 64))))))),
           "S256", unreserved (cfg.cc_length.getD 64), "S256"⟩ ∧
    (unreserved (cfg.cc_length.getD 64)).length = cfg.cc_length.getD 64 ∧
    (∀ c ∈ (unreserved (cfg.cc_length.getD 64)).toList, c ∈ unreservedChars) ∧
    String.mk (b64e (strBytes (hexdigest
        (sha256 (strBytes (unreserved (cfg.cc_length.getD 64))))))) ≠
      String.mk (b64e (sha256 (strBytes (unreserved (cfg.cc_length.getD 64))))) := by
  refine ⟨?_, ?_, ?_, ?_⟩
  · unfold add_code_challenge CC_METHOD
    rw [hmeth]
    simp
  · show (String.mk (List.replicate (cfg.cc_length.getD 64) 'a')).length = cfg.cc_length.getD 64
    simp [String.length]
  · intro c hc
    have : c ∈ List.replicate (cfg.cc_length.getD 64) 'a' := hc
    rw [List.eq_of_mem_replicate this]
    decide
  · intro he
    injection he with he'
    have hlist := congrArg List.length he'
    have h64 : (strBytes (hexdigest (sha256 (strBytes
        (unreserved (cfg.cc_length.getD 64)))))).length = 64 := by
      rw [strBytes_length, hexdigest_length, hlen]
    rw [b64e_length, b64e_length, h64, hlen] at hlist
    exact absurd hlist (by decide)

/-- C1 witness: the default configuration with an abstract 32-byte hash;
the challenge the code produces is 86 characters of encoded hex digest,
not the 43-character base64url of the raw digest. -/
theorem claim_C1_witness :
    add_code_challenge (fun _ => List.replicate 32 0) ⟨none, none⟩ =
      .ok ⟨String.mk (b64e (strBytes (hexdigest (List.replicate 32 0)))),
           "S256", unreserved 64, "S256"⟩ ∧
    (unreserved 64).length = 64 ∧
    (∀ c ∈ (unreserved 64).toList, c ∈ unreservedChars) ∧
    String.mk (b64e (strBytes (hexdigest (List.replicate 32 0)))) ≠
      String.mk (b64e (List.replicate 32 0)) :=
  claim_C1_pkce_challenge (fun _ => List.replicate 32 0) ⟨none, none⟩ (by simp) rfl

/-- C2: parsing an AccessToken response raises the nonce tamper
`ParameterError` exactly when the response carries an ID token, a nonce is
stored for the state, the token carries a nonce claim, and the two
differ; in every other case — equal nonces, or either side absent —
post-processing succeeds. -/
theorem claim_C2_nonce_check (state2nonce : List (String × String))
    (resp : TokenResponseMsg) (state : String) :
    (access_token_post_parse state2nonce resp state =
        some (.parameterError "Someone has messed with \"nonce\"") ↔
      ∃ idt, resp.id_token = some idt ∧ ∃ sn tn,
        lookupL state2nonce state = some sn ∧ idt.nonce = some tn ∧ sn ≠ tn) ∧
    (access_token_post_parse state2nonce resp state = none ↔
      ¬ ∃ idt, resp.id_token = some idt ∧ ∃ sn tn,
        lookupL state2nonce state = some sn ∧ idt.nonce = some tn ∧ sn ≠ tn) := by
  obtain ⟨idt⟩ := resp
  cases idt with
  | none => simp [access_token_post_parse]
  | some i =>
    obtain ⟨tn0⟩ := i
    cases hsn : lookupL state2nonce state with
    | none => simp [access_token_post_parse, hsn]
    | some sn =>
      cases tn0 with
      | none => simp [access_token_post_parse, hsn]
      | some tn =>
        by_cases hne : sn = tn
        · subst hne; simp [access_token_post_parse, hsn]
        · simp [access_token_post_parse, hsn, hne]

/-- C3 counterexample: the claim fails as stated — with no
`request_args`, a keyword `response_type` of `["id_token"]` is
token-bearing yet the constructed record carries no nonce (the keyword
branch checks only for the member `"token"`), and a keyword
`response_type` of `["code"]` also suppresses the otherwise-unconditional
nonce despite no `request_args` being supplied. -/
theorem claim_C3_counterexample :
    authorization_construct none (some ["id_token"]) = .ok ⟨none, none⟩ ∧
    ("id_token" ∈ (["id_token"] : List String)) ∧
    authorization_construct none (some ["code"]) = .ok ⟨none, none⟩ :=
  ⟨rfl, by decide, rfl⟩

/-- C3 (amended): a fresh 32-character nonce is added whenever (a)
caller-supplied `request_args` lacking a nonce has a `response_type`
containing `"token"` or `"id_token"`, (b) neither `request_args` nor a
`response_type` keyword is supplied, or (c) no `request_args` is supplied
and the keyword `response_type` contains the member `"token"`. -/
theorem claim_C3_nonce_generation :
    (∀ (args : AuthArgs) (kw : Option (List String)) (rt : List String),
        args.nonce = none → args.response_type = some rt →
        ("token" ∈ rt ∨ "id_token" ∈ rt) →
        authorization_construct (some args) kw =
          .ok ⟨some (rndstr 32), args.response_type⟩) ∧
    (authorization_construct none none = .ok ⟨some (rndstr 32), none⟩) ∧
    (∀ (rt : List String), "token" ∈ rt →
        authorization_construct none (some rt) = .ok ⟨some (rndstr 32), none⟩) ∧
    (rndstr 32).length = 32 ∧ rndstr 32 ≠ "" := by
  refine ⟨?_, rfl, ?_, by decide, by decide⟩
  · intro args kw rt h1 h2 h3
    unfold authorization_construct
    simp only [h1, h2]
    have hc : (rt.contains "token" || rt.contains "id_token") = true := by
      rcases h3 with h | h <;> simp [h]
    rw [hc]
    simp [base_authorization_construct, h2]
  · intro rt h
    simp only [authorization_construct]
    have hc : rt.contains "token" = true := by simp [h]
    rw [hc]
    simp [base_authorization_construct]

/-- C3 witness: `request_args` with response type `["code", "id_token"]`
and no nonce gets the fresh 32-character nonce. -/
theorem claim_C3_witness :
    authorization_construct (some ⟨none, some ["code", "id_token"]⟩) none =
      .ok ⟨some (rndstr 32), some ["code", "id_token"]⟩ :=
  claim_C3_nonce_generation.1 ⟨none, some ["code", "id_token"]⟩ none
    ["code", "id_token"] rfl rfl (Or.inr (by decide))

/-- C7 counterexample: the claim's unconditional "copied from ClientInfo"
clause fails — when the explicit arguments already supply
`redirect_uris`, the request keeps them and the ClientInfo values are not
copied. -/
theorem claim_C7_counterexample :
    create_registration_request ["redirect_uris"]
        ⟨[], some ["https://other.example/cb"], none, none, []⟩
        [("redirect_uris", .listv ["https://rp.example/cb"])] =
      .ok [("redirect_uris", Val.listv ["https://rp.example/cb"])] ∧
    lookupL [("redirect_uris", Val.listv ["https://rp.example/cb"])] "redirect_uris" ≠
      some (.listv ["https://other.example/cb"]) :=
  ⟨rfl, by decide⟩

/-- C7 (amended): when `redirect_uris` comes neither from the explicit
arguments nor from behaviour, construction fails with
`MissingRequiredAttribute` if the ClientInfo lacks them, and copies the
ClientInfo values into the request if it has them. -/
theorem claim_C7_redirect_uris (params : List String) (ci : RegClientInfo)
    (kwargs : List (String × Val))
    (h1 : lookupL kwargs "redirect_uris" = none)
    (h2 : lookupL ci.behaviour "redirect_uris" = none) :
    (ci.redirect_uris = none →
      create_registration_request params ci kwargs =
        .error (.missingRequiredAttribute "redirect_uris")) ∧
    (∀ l, ci.redirect_uris = some l →
      Except.map (fun r => lookupL r "redirect_uris")
          (create_registration_request params ci kwargs) =
        .ok (some (.listv l))) := by
  have hno : hasKeyL (reg_post_logout ci
      (params.foldl (regFillStep kwargs ci.behaviour) [])) "redirect_uris" = false :=
    reg_post_logout_no_redirect ci _
      (regFill_no_key kwargs ci.behaviour h1 h2 params [] rfl)
  constructor
  · intro h0
    unfold create_registration_request
    rw [if_neg (by rw [hno]; exact Bool.false_ne_true), h0]
  · intro l hl
    unfold create_registration_request
    rw [if_neg (by rw [hno]; exact Bool.false_ne_true), hl]
    exact reg_finish_redirect ci _ (lookupL_insertL_self _ _ _)

/-- C7 witness: a ClientInfo carrying `redirect_uris` and empty
arguments/behaviour yields a request holding exactly those values. -/
theorem claim_C7_witness :
    Except.map (fun r => lookupL r "redirect_uris")
        (create_registration_request ["redirect_uris"]
          ⟨[], some ["https://rp.example/cb"], none, none, []⟩ []) =
      .ok (some (.listv ["https://rp.example/cb"])) :=
  (claim_C7_redirect_uris ["redirect_uris"]
      ⟨[], some ["https://rp.example/cb"], none, none, []⟩ [] rfl rfl).2
    ["https://rp.example/cb"] rfl

/-- C8: a UserInfo construction without an explicit `access_token` looks
up a stored token under the scope keyword, defaulting to "openid"; no
stored token fails with `MissingParameter`, and a found token's
`access_token` is placed into the request. -/
theorem claim_C8_userinfo_token (get_token : String → Option UIToken)
    (request_args : Option (List (String × Val))) (kwargs_scope : Option String)
    (hno : hasKeyL (request_args.getD []) "access_token" = false) :
    (get_token (kwargs_scope.getD "openid") = none →
      userinfo_construct get_token request_args kwargs_scope =
        .error (.missingParameter "No valid token available")) ∧
    (∀ t, get_token (kwargs_scope.getD "openid") = some t →
      userinfo_construct get_token request_args kwargs_scope =
        .ok (insertL (request_args.getD []) "access_token" (.str t.access_token)) ∧
      lookupL (insertL (request_args.getD []) "access_token" (.str t.access_token))
        "access_token" = some (.str t.access_token)) := by
  constructor
  · intro h
    simp [userinfo_construct, base_request_construct, hno, h]
  · intro t h
    refine ⟨?_, lookupL_insertL_self _ _ _⟩
    simp [userinfo_construct, base_request_construct, hno, h]

/-- C8 witness: the spec scenario — no explicit access token, no stored
token for scope "openid" — fails with `MissingParameter`. -/
theorem claim_C8_witness :
    userinfo_construct (fun _ => none) none none =
      .error (.missingParameter "No valid token available") :=
  (claim_C8_userinfo_token (fun _ => none) none none rfl).1 rfl

/-- C9: the first request-object file name is a 10-character token plus
".jwt" and the returned name never collides with an existing file, but a
name chosen after a collision is the bare 10-character token — the ".jwt"
suffix is lost on retry, contradicting the claim. -/
theorem claim_C9_retry_loses_suffix :
    construct_request_uri (fun s => s == "dir/aaaaaaaaaa.jwt") "aaaaaaaaaa"
        ["bbbbbbbbbb"] "dir" "https://ex/" =
      some ("dir/bbbbbbbbbb", "https://ex/bbbbbbbbbb") ∧
    "aaaaaaaaaa".length = 10 ∧ "bbbbbbbbbb".length = 10 ∧
    ¬ (".jwt".toList.IsSuffix "bbbbbbbbbb".toList) ∧
    (∀ (fileExists : String → Bool) (firstDraw : String) (draws : List String)
        (local_dir base_path fn wn : String),
      construct_request_uri fileExists firstDraw draws local_dir base_path =
        some (fn, wn) → fileExists fn = false) := by
  refine ⟨rfl, by decide, by decide, by decide, ?_⟩
  intro fileExists firstDraw draws local_dir base_path fn wn h
  unfold construct_request_uri at h
  cases hl : requestUriLoop fileExists local_dir draws (firstDraw ++ ".jwt") with
  | none => rw [hl] at h; cases h
  | some nm =>
    rw [hl] at h
    simp only [Option.map] at h
    injection h with h1
    have h2 : pathJoin local_dir nm = fn := congrArg Prod.fst h1
    rw [← h2]
    exact requestUriLoop_no_collision fileExists local_dir draws _ nm hl

/-- C9 witness: the no-collision conjunct at the concrete colliding
filesystem — the returned retry filename does not exist. -/
theorem claim_C9_witness :
    (fun s => s == "dir/aaaaaaaaaa.jwt") "dir/bbbbbbbbbb" = false :=
  claim_C9_retry_loses_suffix.2.2.2.2 (fun s => s == "dir/aaaaaaaaaa.jwt")
    "aaaaaaaaaa" ["bbbbbbbbbb"] "dir" "https://ex/"
    "dir/bbbbbbbbbb" "https://ex/bbbbbbbbbb" rfl

/-- C10: supplied `request_args` with neither a nonce nor a
`response_type` make `AuthorizationRequest.construct` raise an uncaught
`KeyError` instead of building a record. -/
theorem claim_C10_missing_response_type (args : AuthArgs) (kw : Option (List String))
    (h1 : args.nonce = none) (h2 : args.response_type = none) :
    authorization_construct (some args) kw = .error .keyError := by
  unfold authorization_construct
  simp only [h1, h2]

/-- C10 witness: empty request arguments raise the `KeyError`. -/
theorem claim_C10_witness :
    authorization_construct (some ⟨none, none⟩) none = .error .keyError :=
  claim_C10_missing_response_type ⟨none, none⟩ none rfl rfl

end Oidc
